import Mathlib
/-!
Verification of the DistributedIntegration coordinator/worker system.

This file gives a shallow embedding of the C++ sources into Lean 4 and proves
(or refutes) the specification claims about them.  Conventions used throughout:

* C++ `double` values are modelled as rationals (`ℚ`).  All control decisions
  in the embedded code are comparisons and assignments of such values, which
  the rational model reproduces exactly; where raw IEEE-754 rounding itself is
  the question (the trapezoidal integration loop) an explicit binary64
  round-to-nearest-even model is introduced.
* C++ unsigned integers are modelled as `Nat` (no arithmetic in the embedded
  code comes near the wrap-around range).
* Exceptions are modelled with `Except String` / `Option`; a function that can
  throw returns `Option`, `none` standing for the thrown exception.
* Logging calls are dropped: they do not affect any value the claims mention.
* Thread interleaving is resolved by the code's own synchronisation: shared
  counters are folded in an explicit order and order-independence is proved
  where the spec demands it.
-/
namespace DistributedIntegration
/-- OS enumeration from `systeminfo.h` / `utils.cpp`. -/
inductive OSType where
  | windows
  | linux
  | macos
  | unknown
deriving DecidableEq, Repr
/-- Architecture enumeration from `systeminfo.h` / `utils.cpp`. -/
inductive Architecture where
  | x86
  | x64
  | arm
  | arm64
  | unknown
deriving DecidableEq, Repr
/-- `SystemInfo` from `systeminfo.h`: what a worker reports at handshake. -/
structure SystemInfo where
  os_type : OSType
  architecture : Architecture
  cpu_cores : Nat
  total_ram_mb : Nat
deriving DecidableEq, Repr
/-- `Task` from `src/common/messages.h`: one integration sub-problem.
`begin`/`end` are C++ field names; `end` is reserved in Lean, so the fields
are `begin_`/`end_`. -/
structure Task where
  id : Nat
  begin_ : ℚ
  end_ : ℚ
  step : ℚ
deriving DecidableEq, Repr
/-- The 1e-10 tolerance used by every validity check in the sources. -/
def epsTol : ℚ := 1 / 10000000000
/-- `Task::is_valid` from `src/common/messages.h`, translated clause by
clause: the `result &= !(...)` chain is the conjunction of the negated
clauses. -/
def Task.is_valid (t : Task) : Bool :=
  decide (¬(t.begin_ ≥ t.end_ ∨ t.step ≤ 0 ∨ t.step ≥ (t.end_ - t.begin_)) ∧
    ¬(t.begin_ ≤ 0) ∧
    ¬(t.begin_ < 1 ∧ t.end_ > 1) ∧
    ¬(|t.begin_ - 1| < epsTol ∨ |t.end_ - 1| < epsTol))
/-- `Result` from `src/common/messages.h`. -/
structure Result where
  task_id : Nat
  value : ℚ
  success : Bool
  error_message : String
deriving DecidableEq, Repr
/-- `TaskBatch` from `src/common/messages.h`. -/
structure TaskBatch where
  tasks : List Task
deriving DecidableEq, Repr
/-- `ResultBatch` from `src/common/messages.h`. -/
structure ResultBatch where
  client_id : Nat
  results : List Result
  total_time_seconds : ℚ
deriving DecidableEq, Repr
/-- `CommandType` from `src/common/messages.h`. -/
inductive CommandType where
  | START_WORK
  | STOP_WORK
  | PING
  | ACK
deriving DecidableEq, Repr
/-- `Command` from `src/common/messages.h`. -/
structure Command where
  type : CommandType
  message : String
deriving DecidableEq, Repr
/-- `HandshakeRequest` from `src/common/messages.h`. -/
structure HandshakeRequest where
  client_version : String
  system_info : SystemInfo
deriving DecidableEq, Repr
/-- `HandshakeResponse` from `src/common/messages.h`. -/
structure HandshakeResponse where
  assigned_client_id : Nat
  server_version : String
  accepted : Bool
  message : String
deriving DecidableEq, Repr
/-- `IntegrationParameters` from `src/server/server.h`. -/
structure IntegrationParameters where
  lower_limit : ℚ
  upper_limit : ℚ
  step : ℚ
deriving DecidableEq, Repr
/-- `IntegrationParameters::is_valid` from `src/server/server.h`, translated
clause by clause: the `result &= !(...)` chain is the conjunction of the
negated clauses. -/
def IntegrationParameters.is_valid (p : IntegrationParameters) : Bool :=
  decide (¬(p.lower_limit ≥ p.upper_limit ∨ p.step ≤ 0 ∨
      p.step ≥ (p.upper_limit - p.lower_limit)) ∧
    ¬(p.lower_limit ≤ 0) ∧
    ¬(p.lower_limit < 1 ∧ p.upper_limit > 1) ∧
    ¬(|p.lower_limit - 1| < epsTol ∨ |p.upper_limit - 1| < epsTol))
/-- Coordinator-side `ClientConnection` (`src/server/client_connection.h`):
the fields the embedded code reads.  The socket itself is not modelled; the
transport outcomes it produces enter the orchestrator model as parameters. -/
structure ClientConnection where
  client_id : Nat
  system_info : SystemInfo
deriving DecidableEq, Repr
/-- `ClientConnection::get_cpu_cores`. -/
def ClientConnection.get_cpu_cores (c : ClientConnection) : Nat :=
  c.system_info.cpu_cores
/-! ## Result aggregator (`src/server/result_aggregator.h`, its .cpp) -/
/-- The mutable state of `ResultAggregator`.  The mutex and condition
variable serialise `add_result` calls; the state after a set of calls is the
fold of the per-call update in the arrival order. -/
structure ResultAggregator where
  expected_count : Nat
  received_count : Nat
  successful_count : Nat
  error_count : Nat
  total_sum : ℚ
  all_results : List Result
deriving DecidableEq, Repr
/-- `ResultAggregator::ResultAggregator(expected_results_count)`. -/
def ResultAggregator.init (expected_results_count : Nat) : ResultAggregator :=
  { expected_count := expected_results_count
    received_count := 0
    successful_count := 0
    error_count := 0
    total_sum := 0
    all_results := [] }
/-- The per-`Result` body of the loop in `ResultAggregator::add_result`. -/
def ResultAggregator.add_one (st : ResultAggregator) (r : Result) : ResultAggregator :=
  if r.success then
    { st with
        total_sum := st.total_sum + r.value
        successful_count := st.successful_count + 1
        all_results := st.all_results ++ [r] }
  else
    { st with
        error_count := st.error_count + 1
        all_results := st.all_results ++ [r] }
/-- `ResultAggregator::add_result`: loop over the batch, then
`received_count_ += batch.results.size()`. -/
def ResultAggregator.add_result (st : ResultAggregator) (batch : ResultBatch) :
    ResultAggregator :=
  let st' := batch.results.foldl ResultAggregator.add_one st
  { st' with received_count := st'.received_count + batch.results.length }
/-- `ResultAggregator::get_final_result`. -/
def ResultAggregator.get_final_result (st : ResultAggregator) : ℚ :=
  st.total_sum
/-- `ResultAggregator::wait_for_all_results(timeout_seconds)`.  Blocking on
the condition variable is modelled by two observation points of the monotone
counter `received_count_`: `eventual_count`, its limit over the whole run
(what an unbounded wait observes), and `count_at_timeout`, its value when the
`timeout_seconds` deadline expires.  `none` models a call that never
returns. -/
def wait_for_all_results (expected timeout_seconds count_at_timeout
    eventual_count : Nat) : Option Bool :=
  if timeout_seconds = 0 then
    if expected ≤ eventual_count then some true else none
  else
    some (decide (expected ≤ count_at_timeout))
/-- The contribution of a result list to `total_sum_`: the values of its
successful results (a failed result contributes zero). -/
def success_sum (rs : List Result) : ℚ :=
  ((rs.filter fun r => r.success).map fun r => r.value).sum
/-! ## Worker execution engine (`worker_pool.cpp`, `integrator.cpp`) -/
/-- `Integrator::execute_task` (`integrator.cpp`).  The strategy's
`integrate` is a parameter returning `Except`: `.error` models a thrown
exception, which the source catches and converts into a failed `Result`
(the three catch blocks differ only in the message prefix; one prefix is
kept).  The strategy pointer is non-null whenever a `WorkerPool` exists
(checked in both constructors), so the null-strategy branch is not
reachable here. -/
def Integrator.execute_task (integrate : ℚ → ℚ → ℚ → Except String ℚ)
    (task : Task) : Result :=
  if !task.is_valid then
    { task_id := task.id, value := 0, success := false
      error_message := "Invalid task parameters" }
  else
    match integrate task.begin_ task.end_ task.step with
    | .ok v =>
        { task_id := task.id, value := v, success := true, error_message := "" }
    | .error msg =>
        { task_id := task.id, value := 0, success := false
          error_message := "Runtime error: " ++ msg }
/-- The per-index body of `WorkerPool::worker_function` (`worker_pool.cpp`):
validate, then run the integrator; any caught exception becomes a failed
`Result` carrying the task id. -/
def WorkerPool.process_task (integrate : ℚ → ℚ → ℚ → Except String ℚ)
    (task : Task) : Result :=
  if !task.is_valid then
    { task_id := task.id, value := 0, success := false
      error_message := "Invalid task parameters" }
  else
    Integrator.execute_task integrate task
/-- `WorkerPool::execute_tasks_parallel` (`worker_pool.cpp`).  The shared
cursor `task_index` hands out each index `0 ≤ i < |tasks|` to exactly one
thread, and slot `i` of the pre-sized output vector is written only by the
thread that drew index `i`, from `tasks[i]` alone; so the final vector does
not depend on the interleaving and equals the index-wise map below.  The
early return for an empty input also returns the empty vector. -/
def WorkerPool.execute_tasks_parallel (integrate : ℚ → ℚ → ℚ → Except String ℚ)
    (tasks : List Task) : List Result :=
  tasks.map (WorkerPool.process_task integrate)
/-! ## Task partitioner (`src/server/task_distributor.cpp`) -/
/-- `TaskDistributor::calculate_tasks_per_client`: each client is assigned a
number of tasks equal to its reported core count, with no adjustment (the
`total_cores` argument is unused by the source body as well). -/
def calculate_tasks_per_client (clients : List ClientConnection)
    (total_cores : Nat) : List Nat :=
  clients.map fun c => c.get_cpu_cores
/-- The inner `for (j = 0; j < num_tasks; ++j)` loop of
`TaskDistributor::distribute_tasks`, by recursion on the number of tasks
still to create.  `remaining = n + 1` means index `j = num_tasks - (n + 1)`,
so `n = 0` is exactly the source's `j == num_tasks - 1`; `is_last_client`
is the source's `i == clients.size() - 1`.  Returns the created tasks, the
next task id and the final `current_position`. -/
def make_tasks (is_last_client : Bool) (upper step task_range : ℚ) :
    Nat → Nat → ℚ → List Task × Nat × ℚ
  | 0, tid, pos => ([], tid, pos)
  | n + 1, tid, pos =>
      let e := if n = 0 ∧ is_last_client = true then upper else pos + task_range
      let r := make_tasks is_last_client upper step task_range n (tid + 1) e
      ({ id := tid, begin_ := pos, end_ := e, step := step } :: r.1, r.2)
/-- The outer per-client loop of `TaskDistributor::distribute_tasks`.
`num_tasks` is `tasks_per_client[i]`, which `calculate_tasks_per_client`
makes equal to the client's core count.  In the source a zero `num_tasks`
makes `task_range` a division by zero (NaN for doubles); here rational
division by zero yields `0`, and in both cases the value is never used
because the inner loop then runs zero times.  Batches are returned in
registry (input) order together with their client ids; the source stores
them into a `std::map` keyed by those ids. -/
def distribute_loop (upper step total_range : ℚ) (total_cores : Nat) :
    List ClientConnection → Nat → ℚ → List (Nat × TaskBatch) × Nat × ℚ
  | [], tid, pos => ([], tid, pos)
  | c :: rest, tid, pos =>
      let num_tasks := c.get_cpu_cores
      let range_for_client := total_range * (c.get_cpu_cores : ℚ) / (total_cores : ℚ)
      let task_range := range_for_client / (num_tasks : ℚ)
      let m := make_tasks rest.isEmpty upper step task_range num_tasks tid pos
      let r := distribute_loop upper step total_range total_cores rest m.2.1 m.2.2
      ((c.client_id, ⟨m.1⟩) :: r.1, r.2)
/-- The tasks of a batch list, concatenated in registry order. -/
def flat_tasks (batches : List (Nat × TaskBatch)) : List Task :=
  batches.flatMap fun b => b.2.tasks
/-- What `TaskDistributor::distribute_tasks` leaves behind: the per-client
batches, the stored `total_tasks_` count and the advanced `next_task_id_`. -/
structure DistOutcome where
  batches : List (Nat × TaskBatch)
  total_tasks : Nat
  next_task_id : Nat
deriving DecidableEq, Repr
/-- `TaskDistributor::distribute_tasks` (`task_distributor.cpp`).  `none`
models the `std::runtime_error("No clients connected")` throw.  `total_cores`
is the sum of the reported core counts; `total_tasks_` is incremented once
per created task, i.e. it ends up as the length of the concatenation. -/
def TaskDistributor.distribute_tasks (clients : List ClientConnection)
    (lower upper step : ℚ) (next_task_id : Nat) : Option DistOutcome :=
  if clients.isEmpty then none
  else
    let total_cores := (clients.map fun c => c.get_cpu_cores).sum
    let total_range := upper - lower
    let r := distribute_loop upper step total_range total_cores clients
      next_task_id lower
    some { batches := r.1, total_tasks := (flat_tasks r.1).length
           next_task_id := r.2.1 }
/-- `l` is a contiguous chain of intervals from `p` to `q`: the first task
begins at `p`, every later task begins exactly where its predecessor ends,
and the last task ends at `q` (for `l = []` this degenerates to `p = q`). -/
def LinkedFrom : List Task → ℚ → ℚ → Prop
  | [], p, q => p = q
  | t :: ts, p, q => t.begin_ = p ∧ LinkedFrom ts t.end_ q
/-! ## Worker registry (`client_manager.h`, `client_manager.cpp`) -/
/-- The state of `ClientManager`: the client list, the `accepting_` latch
and the `next_client_id_` counter (initialised to `1`). -/
structure ClientManager where
  clients : List ClientConnection
  accepting : Bool
  next_client_id : Nat
deriving DecidableEq, Repr
/-- The freshly constructed `ClientManager`. -/
def ClientManager.init : ClientManager :=
  { clients := [], accepting := true, next_client_id := 1 }
/-- `ClientManager::add_client` (`client_manager.cpp`).  Note the rejecting
branch: the source executes `uint64_t client_id = next_client_id_++;` before
returning 0, so the counter is incremented even though nothing is stored.
The accepting branch stores the connection and returns the id already
carried by the connection; `next_client_id_` is untouched there. -/
def ClientManager.add_client (m : ClientManager) (connection : ClientConnection) :
    Nat × ClientManager :=
  if m.accepting = false then
    (0, { m with next_client_id := m.next_client_id + 1 })
  else
    let client_id := connection.client_id
    (client_id, { m with clients := m.clients ++ [connection] })
/-- `ClientManager::stop_accepting`. -/
def ClientManager.stop_accepting (m : ClientManager) : ClientManager :=
  { m with accepting := false }
/-- `ClientManager::get_client_count`. -/
def ClientManager.get_client_count (m : ClientManager) : Nat :=
  m.clients.length
/-- `ClientManager::get_total_cpu_cores`. -/
def ClientManager.get_total_cpu_cores (m : ClientManager) : Nat :=
  (m.clients.map fun c => c.get_cpu_cores).sum
/-! ## Coordinator connection acceptor (`Server::handle_client_connection`) -/
/-- `Server::handle_client_connection` (`server.cpp`), after a successful
`receive_data<HandshakeRequest>`: assigns the next id from the static
counter, replies `accepted=true` unconditionally, constructs the
`ClientConnection` and hands it to `add_client` (whose return value the
source ignores).  There is no inspection of `cpu_cores` anywhere on this
path. -/
def Server.handle_client_connection (request : HandshakeRequest)
    (next_id : Nat) (manager : ClientManager) :
    HandshakeResponse × ClientManager × Nat :=
  let client_id := next_id
  let response : HandshakeResponse :=
    { assigned_client_id := client_id, server_version := "1.0.0"
      accepted := true, message := "Connection accepted" }
  let connection : ClientConnection :=
    { client_id := client_id, system_info := request.system_info }
  let m' := (ClientManager.add_client manager connection).2
  (response, m', next_id + 1)
/-! ## Worker session (`client.cpp`, `network_manager.cpp`) -/
/-- The observable effects of one `Client::run` invocation. -/
structure ClientRunOutcome where
  result_sent : Option ResultBatch
  waited_for_stop : Bool
  error : Option String
deriving DecidableEq, Repr
/-- `Client::run` (`client.cpp`) for a session whose connect and handshake
transport succeed: `handshake` is the coordinator's reply (a rejected
handshake makes `NetworkManager::perform_handshake` throw), `task_batch`
the received batch, `integrate` the strategy, `elapsed` the measured
wall-clock duration.  `waited_for_stop` records whether the session went on
to `receive_command` (step 6); the source proceeds to shutdown regardless
of which command type arrives. -/
def Client.run (handshake : HandshakeResponse) (task_batch : TaskBatch)
    (integrate : ℚ → ℚ → ℚ → Except String ℚ) (elapsed : ℚ) :
    ClientRunOutcome :=
  if handshake.accepted = false then
    { result_sent := none, waited_for_stop := false
      error := some "Handshake rejected" }
  else if task_batch.tasks.isEmpty then
    { result_sent := none, waited_for_stop := false, error := none }
  else
    let results := WorkerPool.execute_tasks_parallel integrate task_batch.tasks
    { result_sent := some
        { client_id := handshake.assigned_client_id
          results := results, total_time_seconds := elapsed }
      waited_for_stop := true, error := none }
/-! ## Coordinator orchestrator (`Server::run`, `server.cpp`) -/
/-- The observable outcome of `Server::run`: the result passed to
`print_final_result` (if reached) and the client ids to which a STOP_WORK
send was attempted (empty if `send_stop_command_to_all_clients` was never
called). -/
structure RunOutcome where
  printed_result : Option ℚ
  stop_work_sent : List Nat
deriving DecidableEq, Repr
/-- `Server::send_stop_command_to_all_clients` (`server.cpp`): attempts a
STOP_WORK send to every registered client (per-client failures only
logged). -/
def Server.send_stop_command_to_all_clients
    (clients : List ClientConnection) : List Nat :=
  clients.map fun c => c.client_id
/-- The number of results delivered by the collector threads: each client
whose `receive_data<ResultBatch>` succeeds contributes the size of its
batch; a failed collector contributes nothing. -/
def collected_count (clients : List ClientConnection)
    (recv : ClientConnection → Option ResultBatch) : Nat :=
  ((clients.filterMap recv).map fun bb => bb.results.length).sum
/-- `Server::run` (`server.cpp`) from parameter validation onward, for a run
where the START signal arrives while running.  `clients` is the registry
snapshot frozen at START; `send_ok c` tells whether `send_tasks_to_client`
succeeds for `c`; `recv c` is the outcome of that client's collector thread
(`none` = transport/decode failure, nothing pushed to the aggregator).
`collect_results` joins every collector thread first and only then calls
`wait_for_all_results(300)`, so the wait observes the final received count;
on a shortfall `run` logs an error, calls `stop()` and returns without
printing a result and without any STOP_WORK broadcast. -/
def Server.run (params : IntegrationParameters)
    (clients : List ClientConnection)
    (send_ok : ClientConnection → Bool)
    (recv : ClientConnection → Option ResultBatch) : RunOutcome :=
  if params.is_valid = false then
    { printed_result := none, stop_work_sent := [] }
  else if clients.length = 0 then
    { printed_result := none, stop_work_sent := [] }
  else
    match TaskDistributor.distribute_tasks clients params.lower_limit
        params.upper_limit params.step 1 with
    | none => { printed_result := none, stop_work_sent := [] }
    | some outcome =>
        if (clients.all send_ok) = false then
          { printed_result := none, stop_work_sent := [] }
        else
          let aggregator := (clients.filterMap recv).foldl
            ResultAggregator.add_result (ResultAggregator.init outcome.total_tasks)
          if (decide (outcome.total_tasks ≤ aggregator.received_count)) = false then
            { printed_result := none, stop_work_sent := [] }
          else
            { printed_result := some (ResultAggregator.get_final_result aggregator)
              stop_work_sent := Server.send_stop_command_to_all_clients clients }
/-- The concrete partitioner outcome on the 0-core/4-core worker pair,
used to witness `zero_cores_empty_batch`. -/
def distOutcomeC4 : DistOutcome :=
  (TaskDistributor.distribute_tasks
      [⟨1, ⟨OSType.linux, Architecture.x64, 0, 1024⟩⟩,
       ⟨2, ⟨OSType.linux, Architecture.x64, 4, 2048⟩⟩] 2 3 (1/100) 1).getD
    ⟨[], 0, 0⟩
/-- The concrete partitioner outcome (one 1-core worker over `[2, 30]`,
step 1) used by the C1 counterexample and witness. -/
def distOutcomeC1 : DistOutcome :=
  (TaskDistributor.distribute_tasks
      [⟨1, ⟨OSType.linux, Architecture.x64, 1, 1024⟩⟩] 2 30 1 1).getD
    ⟨[], 0, 0⟩
/-! ## Trapezoidal rule loop (`integration_methods/trapezoidal_rule.h`)

The loop `while (x < upper) { x_next = x + step; ... x = x_next; }` runs on
IEEE-754 binary64 doubles, so its termination question is a question about
binary64 rounding.  `fl64` below models binary64 round-to-nearest, ties to
even, with unbounded exponent (overflow and subnormals are irrelevant in
the exercised range); comparisons on representable values are exact, as in
IEEE.  A second copy of the loop in exact rational arithmetic isolates what
the claim gets right. -/
/-- Fuel-driven `⌊log₂⌋` helper (structural recursion so that the kernel
can evaluate it; `Nat.log2` itself is defined by well-founded recursion). -/
def natLog2Go : Nat → Nat → Nat
  | 0, _ => 0
  | fuel + 1, n => if n ≥ 2 then natLog2Go fuel (n / 2) + 1 else 0
/-- `⌊log₂ n⌋` for `n ≥ 1` (0 for `n ∈ {0, 1}`). -/
def natLog2 (n : Nat) : Nat := natLog2Go n n
/-- `2 ^ k` in `ℚ` for an integer exponent. -/
def zpow2 (k : ℤ) : ℚ :=
  if 0 ≤ k then ((2 ^ k.toNat : ℕ) : ℚ) else mkRat 1 (2 ^ (-k).toNat)
/-- `⌊log₂ q⌋` for a positive rational: from `2 ^ l₁ ≤ num < 2 ^ (l₁+1)`
and `2 ^ l₂ ≤ den < 2 ^ (l₂+1)` the true value is `l₁ - l₂` or
`l₁ - l₂ - 1`, discriminated by one comparison. -/
def floorLog2 (q : ℚ) : ℤ :=
  if zpow2 ((natLog2 q.num.natAbs : ℤ) - (natLog2 q.den : ℤ)) ≤ q then
    (natLog2 q.num.natAbs : ℤ) - (natLog2 q.den : ℤ)
  else
    (natLog2 q.num.natAbs : ℤ) - (natLog2 q.den : ℤ) - 1
/-- Round a rational to an integer, nearest, ties to even. -/
def roundHalfEven (q : ℚ) : ℤ :=
  if q - (⌊q⌋ : ℚ) < 1/2 then ⌊q⌋
  else if (1 : ℚ)/2 < q - (⌊q⌋ : ℚ) then ⌊q⌋ + 1
  else if ⌊q⌋ % 2 = 0 then ⌊q⌋ else ⌊q⌋ + 1
/-- Binary64 round-to-nearest-even on `ℚ` (53-bit significand, unbounded
exponent): scale `|q|` to a significand in `[2^52, 2^53)`, round it to an
integer with ties to even, and scale back. -/
def fl64 (q : ℚ) : ℚ :=
  if q = 0 then 0
  else
    (if q < 0 then -1 else 1) *
      (roundHalfEven (|q| / zpow2 (floorLog2 |q| - 52)) : ℚ) *
      zpow2 (floorLog2 |q| - 52)
/-- `TrapezoidalRule::validate_parameters`
(`integration_methods/trapezoidal_rule.h`): true iff none of the five
throwing checks fires. -/
def trapezoid_validate (lower upper step : ℚ) : Bool :=
  decide (¬(lower ≤ 0) ∧
    ¬((lower < 1 ∧ upper > 1) ∨ |lower - 1| < epsTol ∨ |upper - 1| < epsTol) ∧
    ¬(upper ≤ lower) ∧
    ¬(step ≤ 0) ∧
    ¬(step ≥ upper - lower))
/-- The `while (x < upper)` loop of `TrapezoidalRule::integrate`, with
every double operation rounded through `fl64`, indexed by fuel: `none`
means the loop is still running after `fuel` iterations (so
`∀ fuel, ... = none` is non-termination).  `f` abstracts `function`
(`1.0 / std::log(x)`; real logarithms are outside the rational model, and
nothing below depends on `f`'s values).  The state is `(x, sum, f_prev)`
exactly as in the source. -/
def trapezoid_loop_fp (f : ℚ → ℚ) (upper step : ℚ) :
    Nat → ℚ → ℚ → ℚ → Option ℚ
  | 0, x, sum, _ => if x < upper then none else some sum
  | fuel + 1, x, sum, f_prev =>
      if x < upper then
        let x_next := fl64 (x + step)
        let x_clip := if x_next > upper then upper else x_next
        let f_next := f x_clip
        let area := fl64 (fl64 (fl64 (f_prev + f_next) * fl64 (x_clip - x)) / 2)
        trapezoid_loop_fp f upper step fuel x_clip (fl64 (sum + area)) f_next
      else some sum
/-- The same loop in exact rational arithmetic (what the claim's
"x strictly increases every iteration" reasoning implicitly assumes). -/
def trapezoid_loop_exact (f : ℚ → ℚ) (upper step : ℚ) :
    Nat → ℚ → ℚ → ℚ → Option ℚ
  | 0, x, sum, _ => if x < upper then none else some sum
  | fuel + 1, x, sum, f_prev =>
      if x < upper then
        let x_next := x + step
        let x_clip := if x_next > upper then upper else x_next
        let f_next := f x_clip
        let area := (f_prev + f_next) * (x_clip - x) / 2
        trapezoid_loop_exact f upper step fuel x_clip (sum + area) f_next
      else some sum
theorem linkedFrom_append {l₁ l₂ : List Task} {p q r : ℚ}
    (h₁ : LinkedFrom l₁ p q) (h₂ : LinkedFrom l₂ q r) :
    LinkedFrom (l₁ ++ l₂) p r := by
  induction l₁ generalizing p with
  | nil => cases h₁; simpa using h₂
  | cons t ts ih =>
      obtain ⟨hb, hrest⟩ := h₁
      exact ⟨hb, ih hrest⟩
theorem linkedFrom_head {l : List Task} {p q : ℚ}
    (h : LinkedFrom l p q) (hne : l ≠ []) :
    ∃ t₀, l.head? = some t₀ ∧ t₀.begin_ = p := by
  cases l with
  | nil => exact absurd rfl hne
  | cons t ts => exact ⟨t, rfl, h.1⟩
theorem linkedFrom_chain {l : List Task} {p q : ℚ}
    (h : LinkedFrom l p q) :
    List.Chain' (fun t u => u.begin_ = t.end_) l := by
  induction l generalizing p with
  | nil => exact List.chain'_nil
  | cons t ts ih =>
      obtain ⟨hb, hrest⟩ := h
      cases ts with
      | nil => simp
      | cons u us =>
          exact List.Chain'.cons hrest.1 (ih hrest)
theorem linkedFrom_last {l : List Task} {p q : ℚ}
    (h : LinkedFrom l p q) (hne : l ≠ []) :
    ∃ tl, l.getLast? = some tl ∧ tl.end_ = q := by
  induction l generalizing p with
  | nil => exact absurd rfl hne
  | cons t ts ih =>
      obtain ⟨hb, hrest⟩ := h
      cases ts with
      | nil =>
          cases hrest
          exact ⟨t, rfl, rfl⟩
      | cons u us =>
          obtain ⟨tl, hl, he⟩ := ih hrest (by simp)
          refine ⟨tl, ?_, he⟩
          rw [List.getLast?_cons_cons]
          exact hl
theorem make_tasks_linked (is_last_client : Bool) (upper step task_range : ℚ) :
    ∀ n tid pos,
      LinkedFrom (make_tasks is_last_client upper step task_range n tid pos).1
        pos (make_tasks is_last_client upper step task_range n tid pos).2.2 := by
  intro n
  induction n with
  | zero => intro tid pos; simp [make_tasks, LinkedFrom]
  | succ m ih =>
      intro tid pos
      simp only [make_tasks]
      exact ⟨rfl, ih _ _⟩
theorem make_tasks_length (is_last_client : Bool) (upper step task_range : ℚ) :
    ∀ n tid pos,
      (make_tasks is_last_client upper step task_range n tid pos).1.length = n := by
  intro n
  induction n with
  | zero => intro tid pos; simp [make_tasks]
  | succ m ih =>
      intro tid pos
      simp only [make_tasks, List.length_cons]
      exact congrArg Nat.succ (ih _ _)
theorem make_tasks_final_succ (upper step task_range : ℚ) :
    ∀ n tid pos,
      (make_tasks true upper step task_range (n + 1) tid pos).2.2 = upper := by
  intro n
  induction n with
  | zero => intro tid pos; simp [make_tasks]
  | succ m ih =>
      intro tid pos
      have ih' := ih (tid + 1)
        (if m + 1 = 0 ∧ True then upper else pos + task_range)
      simp only [make_tasks] at ih' ⊢
      simpa using ih'
theorem make_tasks_final_last (upper step task_range : ℚ) :
    ∀ n tid pos, 0 < n →
      (make_tasks true upper step task_range n tid pos).2.2 = upper := by
  intro n
  cases n with
  | zero => intro tid pos h; exact absurd h (by simp)
  | succ m => intro tid pos _; exact make_tasks_final_succ upper step task_range m tid pos
theorem distribute_loop_linked (upper step total_range : ℚ) (total_cores : Nat) :
    ∀ cs tid pos,
      LinkedFrom
        (flat_tasks (distribute_loop upper step total_range total_cores cs tid pos).1)
        pos
        (distribute_loop upper step total_range total_cores cs tid pos).2.2 := by
  intro cs
  induction cs with
  | nil => intro tid pos; simp [distribute_loop, flat_tasks, LinkedFrom]
  | cons c rest ih =>
      intro tid pos
      simp only [distribute_loop, flat_tasks, List.flatMap_cons]
      exact linkedFrom_append (make_tasks_linked _ _ _ _ _ _ _) (ih _ _)
theorem distribute_loop_final (upper step total_range : ℚ) (total_cores : Nat) :
    ∀ cs tid pos, cs ≠ [] → (∀ c ∈ cs, 1 ≤ c.get_cpu_cores) →
      (distribute_loop upper step total_range total_cores cs tid pos).2.2 = upper := by
  intro cs
  induction cs with
  | nil => intro tid pos h; exact absurd rfl h
  | cons c rest ih =>
      intro tid pos _ hc
      cases rest with
      | nil =>
          simp only [distribute_loop, List.isEmpty_nil]
          exact make_tasks_final_last upper step _ _ _ _
            (hc c (List.mem_cons_self _ _))
      | cons d ds =>
          simp only [distribute_loop]
          exact ih _ _ (by simp) fun x hx => hc x (List.mem_cons_of_mem _ hx)
theorem distribute_loop_flat_nonempty (upper step total_range : ℚ)
    (total_cores : Nat) :
    ∀ cs tid pos, cs ≠ [] → (∀ c ∈ cs, 1 ≤ c.get_cpu_cores) →
      flat_tasks (distribute_loop upper step total_range total_cores cs tid pos).1 ≠ [] := by
  intro cs
  cases cs with
  | nil => intro tid pos h; exact absurd rfl h
  | cons c rest =>
      intro tid pos _ hc
      simp only [distribute_loop, flat_tasks, List.flatMap_cons]
      intro hcontra
      have hempty : (make_tasks rest.isEmpty upper step
          (total_range * (c.get_cpu_cores : ℚ) / (total_cores : ℚ) /
            (c.get_cpu_cores : ℚ)) c.get_cpu_cores tid pos).1 = [] :=
        (List.append_eq_nil.mp hcontra).1
      have hlen := make_tasks_length rest.isEmpty upper step
        (total_range * (c.get_cpu_cores : ℚ) / (total_cores : ℚ) /
          (c.get_cpu_cores : ℚ)) c.get_cpu_cores tid pos
      rw [hempty] at hlen
      simp only [List.length_nil] at hlen
      have h1 := hc c (List.mem_cons_self _ _)
      omega
theorem distribute_loop_length (upper step total_range : ℚ) (total_cores : Nat) :
    ∀ cs tid pos,
      (distribute_loop upper step total_range total_cores cs tid pos).1.length
        = cs.length := by
  intro cs
  induction cs with
  | nil => intro tid pos; simp [distribute_loop]
  | cons c rest ih =>
      intro tid pos
      simp only [distribute_loop, List.length_cons]
      exact congrArg Nat.succ (ih _ _)
theorem distribute_loop_batch_tasks_length (upper step total_range : ℚ)
    (total_cores : Nat) :
    ∀ cs tid pos i (hi : i < cs.length)
      (hi' : i < (distribute_loop upper step total_range total_cores cs tid pos).1.length),
      (((distribute_loop upper step total_range total_cores cs tid pos).1.get
          ⟨i, hi'⟩).2.tasks.length) = (cs.get ⟨i, hi⟩).get_cpu_cores := by
  intro cs
  induction cs with
  | nil => intro tid pos i hi; exact absurd hi (by simp)
  | cons c rest ih =>
      intro tid pos i hi hi'
      cases i with
      | zero =>
          simp only [distribute_loop, List.get]
          exact make_tasks_length _ _ _ _ _ _ _
      | succ j =>
          simp only [distribute_loop, List.get] at hi' ⊢
          exact ih _ _ j (Nat.lt_of_succ_lt_succ hi) _
/-! ## Aggregator bookkeeping lemmas -/
theorem success_sum_cons (r : Result) (rs : List Result) :
    success_sum (r :: rs)
      = (if r.success then r.value else 0) + success_sum rs := by
  by_cases hs : r.success
  · simp [success_sum, List.filter_cons, hs]
  · simp [success_sum, List.filter_cons, hs]
theorem add_one_received (st : ResultAggregator) (r : Result) :
    (ResultAggregator.add_one st r).received_count = st.received_count := by
  unfold ResultAggregator.add_one
  by_cases hs : r.success <;> simp [hs]
theorem foldl_add_one_received (rs : List Result) :
    ∀ st : ResultAggregator,
      (rs.foldl ResultAggregator.add_one st).received_count
        = st.received_count := by
  induction rs with
  | nil => intro st; rfl
  | cons r rs ih =>
      intro st
      rw [List.foldl_cons, ih, add_one_received]
theorem add_one_total_sum (st : ResultAggregator) (r : Result) :
    (ResultAggregator.add_one st r).total_sum
      = st.total_sum + (if r.success then r.value else 0) := by
  unfold ResultAggregator.add_one
  by_cases hs : r.success <;> simp [hs]
theorem foldl_add_one_total_sum (rs : List Result) :
    ∀ st : ResultAggregator,
      (rs.foldl ResultAggregator.add_one st).total_sum
        = st.total_sum + success_sum rs := by
  induction rs with
  | nil => intro st; simp [success_sum]
  | cons r rs ih =>
      intro st
      rw [List.foldl_cons, ih, add_one_total_sum, success_sum_cons]
      ring
theorem add_result_received (st : ResultAggregator) (bb : ResultBatch) :
    (ResultAggregator.add_result st bb).received_count
      = st.received_count + bb.results.length := by
  show (bb.results.foldl ResultAggregator.add_one st).received_count
      + bb.results.length = st.received_count + bb.results.length
  rw [foldl_add_one_received]
theorem add_result_total_sum (st : ResultAggregator) (bb : ResultBatch) :
    (ResultAggregator.add_result st bb).total_sum
      = st.total_sum + success_sum bb.results := by
  show (bb.results.foldl ResultAggregator.add_one st).total_sum
      = st.total_sum + success_sum bb.results
  rw [foldl_add_one_total_sum]
theorem foldl_add_result_received (bs : List ResultBatch) :
    ∀ st : ResultAggregator,
      (bs.foldl ResultAggregator.add_result st).received_count
        = st.received_count + (bs.map fun bb => bb.results.length).sum := by
  induction bs with
  | nil => intro st; simp
  | cons bb bs ih =>
      intro st
      rw [List.foldl_cons, ih, add_result_received, List.map_cons, List.sum_cons]
      ring
theorem foldl_add_result_total_sum (bs : List ResultBatch) :
    ∀ st : ResultAggregator,
      (bs.foldl ResultAggregator.add_result st).total_sum
        = st.total_sum + (bs.map fun bb => success_sum bb.results).sum := by
  induction bs with
  | nil => intro st; simp
  | cons bb bs ih =>
      intro st
      rw [List.foldl_cons, ih, add_result_total_sum, List.map_cons, List.sum_cons]
      ring
theorem success_sum_append (l₁ l₂ : List Result) :
    success_sum (l₁ ++ l₂) = success_sum l₁ + success_sum l₂ := by
  simp [success_sum]
theorem success_sum_flatMap (bs : List ResultBatch) :
    success_sum (bs.flatMap fun bb => bb.results)
      = (bs.map fun bb => success_sum bb.results).sum := by
  induction bs with
  | nil => simp [success_sum]
  | cons bb bs ih => simp [List.flatMap_cons, success_sum_append, ih]
theorem natLog2_big : natLog2 9007199254740993 = 53 := by decide
theorem fl64_absorb : fl64 (9007199254740993 : ℚ) = 9007199254740992 := by
  have hnum : (9007199254740993 : ℚ).num = 9007199254740993 := by norm_num
  have hden : (9007199254740993 : ℚ).den = 1 := by norm_num
  have habs : |(9007199254740993 : ℚ)| = 9007199254740993 := by norm_num
  have hlog : floorLog2 (9007199254740993 : ℚ) = 53 := by
    have hz : zpow2 53 = 9007199254740992 := by
      unfold zpow2
      rw [if_pos (by decide), show Int.toNat 53 = 53 from rfl]
      norm_num
    unfold floorLog2
    rw [hnum, hden]
    have hA : ((9007199254740993 : ℤ).natAbs) = 9007199254740993 := by decide
    rw [hA, natLog2_big]
    have hB : natLog2 1 = 0 := by decide
    rw [hB]
    norm_num [hz]
  unfold fl64
  rw [if_neg (by norm_num : ¬(9007199254740993 : ℚ) = 0),
    if_neg (by norm_num : ¬(9007199254740993 : ℚ) < 0), habs, hlog]
  have hsc : ((53 : ℤ) - 52) = 1 := by norm_num
  rw [hsc]
  have hz1 : zpow2 1 = 2 := by norm_num [zpow2]
  rw [hz1]
  have hr : roundHalfEven ((9007199254740993 : ℚ) / 2) = 4503599627370496 := by
    unfold roundHalfEven
    have hfl : ⌊(9007199254740993 : ℚ) / 2⌋ = 4503599627370496 := by norm_num
    rw [hfl]
    rw [if_neg (by push_cast; norm_num), if_neg (by push_cast; norm_num),
      if_pos (by decide)]
  rw [hr]
  push_cast
  norm_num
theorem trapezoid_loop_fp_stuck (f : ℚ → ℚ) : ∀ fuel sum f_prev,
    trapezoid_loop_fp f 9007199254740996 1 fuel 9007199254740992 sum f_prev
      = none := by
  intro fuel
  induction fuel with
  | zero =>
      intro sum fp
      unfold trapezoid_loop_fp
      rw [if_pos (by norm_num)]
  | succ n ih =>
      intro sum fp
      unfold trapezoid_loop_fp
      rw [if_pos (by norm_num)]
      simp only []
      rw [show fl64 ((9007199254740992 : ℚ) + 1) = 9007199254740992 by
        rw [show ((9007199254740992 : ℚ) + 1) = 9007199254740993 by norm_num]
        exact fl64_absorb]
      rw [if_neg (by norm_num : ¬(9007199254740992 : ℚ) > 9007199254740996)]
      exact ih _ _
theorem trapezoid_loop_exact_term_aux (f : ℚ → ℚ) (upper step : ℚ)
    (hstep : 0 < step) :
    ∀ (fuel : ℕ) (x sum f_prev : ℚ), upper - x ≤ (fuel : ℚ) * step →
      (trapezoid_loop_exact f upper step (fuel + 1) x sum f_prev).isSome
        = true := by
  intro fuel
  induction fuel with
  | zero =>
      intro x sum fp hbound
      unfold trapezoid_loop_exact
      rw [if_neg (by push_cast at hbound; intro hlt; linarith)]
      rfl
  | succ n ih =>
      intro x sum fp hbound
      by_cases hx : x < upper
      · show (trapezoid_loop_exact f upper step (n + 1 + 1) x sum fp).isSome
          = true
        unfold trapezoid_loop_exact
        rw [if_pos hx]
        simp only []
        by_cases hclip : x + step > upper
        · rw [if_pos hclip]
          exact ih upper _ _ (by
            have : (0 : ℚ) ≤ (n : ℚ) * step :=
              mul_nonneg (Nat.cast_nonneg n) hstep.le
            linarith)
        · rw [if_neg hclip]
          exact ih (x + step) _ _ (by push_cast at hbound; linarith)
      · unfold trapezoid_loop_exact
        rw [if_neg hx]
        rfl
/-! ## The claims -/
/-- C3: for M ≥ 1 registered workers each reporting at least one core, any
interval `[a, b]` with `a < b` and any step `h`, `distribute_tasks` succeeds
and the tasks, concatenated in registry order, contiguously cover `[a, b]`:
the first task begins at `a`, every later task begins exactly where its
predecessor ends, and the last task ends at exactly `b`. -/
theorem distribute_tasks_contiguous_cover
    (clients : List ClientConnection) (a b h : ℚ) (tid : Nat)
    (hne : clients ≠ [])
    (hcores : ∀ c ∈ clients, 1 ≤ c.get_cpu_cores)
    (hab : a < b) :
    ∃ out, TaskDistributor.distribute_tasks clients a b h tid = some out ∧
      flat_tasks out.batches ≠ [] ∧
      (∀ t₀, (flat_tasks out.batches).head? = some t₀ → t₀.begin_ = a) ∧
      List.Chain' (fun t u => u.begin_ = t.end_) (flat_tasks out.batches) ∧
      (∀ tl, (flat_tasks out.batches).getLast? = some tl → tl.end_ = b) := by
  have hne' : clients.isEmpty = false := by
    cases clients with
    | nil => exact absurd rfl hne
    | cons c cs => rfl
  have hL := distribute_loop_linked b h (b - a)
    ((clients.map fun c => c.get_cpu_cores).sum) clients tid a
  have hfin := distribute_loop_final b h (b - a)
    ((clients.map fun c => c.get_cpu_cores).sum) clients tid a hne hcores
  have hflat := distribute_loop_flat_nonempty b h (b - a)
    ((clients.map fun c => c.get_cpu_cores).sum) clients tid a hne hcores
  rw [hfin] at hL
  have hsome : TaskDistributor.distribute_tasks clients a b h tid = some
      { batches := (distribute_loop b h (b - a)
          ((clients.map fun c => c.get_cpu_cores).sum) clients tid a).1
        total_tasks := (flat_tasks (distribute_loop b h (b - a)
          ((clients.map fun c => c.get_cpu_cores).sum) clients tid a).1).length
        next_task_id := (distribute_loop b h (b - a)
          ((clients.map fun c => c.get_cpu_cores).sum) clients tid a).2.1 } := by
    simp only [TaskDistributor.distribute_tasks, hne', Bool.false_eq_true,
      if_false]
  refine ⟨_, hsome, hflat, ?_, ?_, ?_⟩
  · intro t₀ h₀
    obtain ⟨t', ht', hb⟩ := linkedFrom_head hL hflat
    rw [h₀] at ht'
    cases ht'
    exact hb
  · exact linkedFrom_chain hL
  · intro tl hl
    obtain ⟨t', ht', he⟩ := linkedFrom_last hL hflat
    rw [hl] at ht'
    cases ht'
    exact he
/-- Witness for `distribute_tasks_contiguous_cover`: one worker with two
cores over `[2, 3]` with step `1/100`. -/
theorem distribute_tasks_contiguous_cover_witness :
    ∃ out, TaskDistributor.distribute_tasks
        [⟨1, ⟨OSType.linux, Architecture.x64, 2, 1024⟩⟩] 2 3 (1/100) 1
        = some out ∧
      flat_tasks out.batches ≠ [] ∧
      (∀ t₀, (flat_tasks out.batches).head? = some t₀ → t₀.begin_ = 2) ∧
      List.Chain' (fun t u => u.begin_ = t.end_) (flat_tasks out.batches) ∧
      (∀ tl, (flat_tasks out.batches).getLast? = some tl → tl.end_ = 3) :=
  distribute_tasks_contiguous_cover
    [⟨1, ⟨OSType.linux, Architecture.x64, 2, 1024⟩⟩] 2 3 (1/100) 1
    (by simp) (by decide) (by norm_num)
/-- C4 counterexample: with a 0-core worker first and a 4-core worker
second, `calculate_tasks_per_client` copies the `0` through unchanged
(no clamping to 1), and the 0-core worker's batch holds zero tasks rather
than the one task the claim promises. -/
theorem zero_cores_counterexample :
    calculate_tasks_per_client
        [⟨1, ⟨OSType.linux, Architecture.x64, 0, 1024⟩⟩,
         ⟨2, ⟨OSType.linux, Architecture.x64, 4, 2048⟩⟩] 4 = [0, 4] ∧
    (TaskDistributor.distribute_tasks
        [⟨1, ⟨OSType.linux, Architecture.x64, 0, 1024⟩⟩,
         ⟨2, ⟨OSType.linux, Architecture.x64, 4, 2048⟩⟩] 2 3 (1/100) 1).map
      (fun out => out.batches.map fun bb => (bb.1, bb.2.tasks.length))
      = some [(1, 0), (2, 4)] := by
  constructor
  · rfl
  · rfl
/-- C4 amended: a worker reporting `cpu_cores = 0` is not treated as having
one core.  `calculate_tasks_per_client` returns the reported core counts
unchanged, and such a worker is assigned an empty batch: the per-task width
for it is computed as `share / 0` (NaN in the source's doubles, `0` in this
rational model, in both cases unused) and the source then reads `front()` of
the empty task vector, which has no element. -/
theorem zero_cores_empty_batch
    (clients : List ClientConnection) (a b h : ℚ) (tid : Nat)
    (i : Nat) (hi : i < clients.length)
    (hz : (clients.get ⟨i, hi⟩).get_cpu_cores = 0)
    (out : DistOutcome)
    (hout : TaskDistributor.distribute_tasks clients a b h tid = some out) :
    calculate_tasks_per_client clients
        ((clients.map fun c => c.get_cpu_cores).sum)
      = clients.map (fun c => c.get_cpu_cores) ∧
    ∃ hi' : i < out.batches.length, (out.batches.get ⟨i, hi'⟩).2.tasks = [] := by
  have hne' : clients.isEmpty = false := by
    cases clients with
    | nil => exact absurd hi (by simp)
    | cons c cs => rfl
  simp only [TaskDistributor.distribute_tasks, hne', Bool.false_eq_true,
    if_false, Option.some.injEq] at hout
  subst hout
  refine ⟨rfl, ?_⟩
  have hlen := distribute_loop_length b h (b - a)
    ((clients.map fun c => c.get_cpu_cores).sum) clients tid a
  have hib : i < (distribute_loop b h (b - a)
      ((clients.map fun c => c.get_cpu_cores).sum) clients tid a).1.length := by
    rw [hlen]; exact hi
  refine ⟨hib, ?_⟩
  have htl := distribute_loop_batch_tasks_length b h (b - a)
    ((clients.map fun c => c.get_cpu_cores).sum) clients tid a i hi hib
  rw [hz] at htl
  exact List.length_eq_zero.mp htl
/-- Witness for `zero_cores_empty_batch` at the counterexample input. -/
theorem zero_cores_empty_batch_witness :
    calculate_tasks_per_client
        [⟨1, ⟨OSType.linux, Architecture.x64, 0, 1024⟩⟩,
         ⟨2, ⟨OSType.linux, Architecture.x64, 4, 2048⟩⟩]
        (([⟨1, ⟨OSType.linux, Architecture.x64, 0, 1024⟩⟩,
           ⟨2, ⟨OSType.linux, Architecture.x64, 4, 2048⟩⟩].map
            fun c : ClientConnection => c.get_cpu_cores).sum)
      = [⟨1, ⟨OSType.linux, Architecture.x64, 0, 1024⟩⟩,
         ⟨2, ⟨OSType.linux, Architecture.x64, 4, 2048⟩⟩].map
          (fun c : ClientConnection => c.get_cpu_cores) ∧
    ∃ hi' : 0 < (distOutcomeC4.batches).length,
      ((distOutcomeC4.batches).get ⟨0, hi'⟩).2.tasks = [] :=
  zero_cores_empty_batch
    [⟨1, ⟨OSType.linux, Architecture.x64, 0, 1024⟩⟩,
     ⟨2, ⟨OSType.linux, Architecture.x64, 4, 2048⟩⟩] 2 3 (1/100) 1
    0 (by decide) (by decide) distOutcomeC4 (by rfl)
/-- C1 counterexample: a valid job with one registered 1-core worker whose
collector receives nothing (timeout/shortfall).  The run neither prints a
result nor attempts any STOP_WORK send, refuting the claim that the partial
sum is reported and a STOP_WORK is attempted for every session. -/
theorem server_run_timeout_counterexample :
    Server.run { lower_limit := 2, upper_limit := 30, step := 1 }
        [⟨1, ⟨OSType.linux, Architecture.x64, 1, 1024⟩⟩]
        (fun _ => true) (fun _ => none)
      = { printed_result := none, stop_work_sent := [] } ∧
    ({ printed_result := none, stop_work_sent := [] } : RunOutcome).stop_work_sent
      ≠ Server.send_stop_command_to_all_clients
          [⟨1, ⟨OSType.linux, Architecture.x64, 1, 1024⟩⟩] := by
  refine ⟨?_, by decide⟩
  have hv : ({ lower_limit := 2, upper_limit := 30, step := 1 } :
      IntegrationParameters).is_valid = true := by
    simp only [IntegrationParameters.is_valid, decide_eq_true_eq]
    norm_num [epsTol]
  have hd : TaskDistributor.distribute_tasks
      [⟨1, ⟨OSType.linux, Architecture.x64, 1, 1024⟩⟩] 2 30 1 1
      = some distOutcomeC1 := rfl
  have ht : distOutcomeC1.total_tasks = 1 := rfl
  simp [Server.run, hv, hd, ht, ResultAggregator.init]
/-- C1 amended: when the result count collected before the aggregator's
timeout falls short of the expected task count, `Server::run` logs an error,
calls `stop()` and returns: it prints no (partial) result and never calls
`send_stop_command_to_all_clients`, so no STOP_WORK reaches any worker. -/
theorem server_run_timeout_aborts (params : IntegrationParameters)
    (clients : List ClientConnection)
    (send_ok : ClientConnection → Bool)
    (recv : ClientConnection → Option ResultBatch) (out : DistOutcome)
    (hv : params.is_valid = true)
    (hne : clients ≠ [])
    (hdist : TaskDistributor.distribute_tasks clients params.lower_limit
      params.upper_limit params.step 1 = some out)
    (hsend : clients.all send_ok = true)
    (hshort : collected_count clients recv < out.total_tasks) :
    Server.run params clients send_ok recv
      = { printed_result := none, stop_work_sent := [] } := by
  have hlen : clients.length ≠ 0 := by
    cases clients with
    | nil => exact absurd rfl hne
    | cons c cs => simp
  have hrecv : ((clients.filterMap recv).foldl ResultAggregator.add_result
      (ResultAggregator.init out.total_tasks)).received_count
        = collected_count clients recv := by
    rw [foldl_add_result_received]
    simp [ResultAggregator.init, collected_count]
  unfold Server.run
  rw [hv, hdist]
  simp only [Bool.true_eq_false, if_false, hlen, if_false, hsend]
  rw [hrecv]
  simp [Nat.not_le.mpr hshort]
/-- Witness for `server_run_timeout_aborts` at the counterexample input. -/
theorem server_run_timeout_aborts_witness :
    Server.run { lower_limit := 2, upper_limit := 30, step := 1 }
        [⟨1, ⟨OSType.linux, Architecture.x64, 1, 1024⟩⟩]
        (fun _ => true) (fun _ => none)
      = { printed_result := none, stop_work_sent := [] } :=
  server_run_timeout_aborts
    { lower_limit := 2, upper_limit := 30, step := 1 }
    [⟨1, ⟨OSType.linux, Architecture.x64, 1, 1024⟩⟩]
    (fun _ => true) (fun _ => none) distOutcomeC1
    (by simp only [IntegrationParameters.is_valid, decide_eq_true_eq]
        norm_num [epsTol])
    (by simp) (by rfl) (by decide) (by decide)
/-- C2 counterexample: a handshake reporting `cpu_cores = 0` is answered
with `accepted = true` and the worker is registered into an accepting
registry, refuting the claim that it is rejected and never registered. -/
theorem handshake_zero_cores_counterexample :
    (Server.handle_client_connection
        ⟨"1.0.0", ⟨OSType.linux, Architecture.x64, 0, 1024⟩⟩ 1
        ClientManager.init).1.accepted = true ∧
    (Server.handle_client_connection
        ⟨"1.0.0", ⟨OSType.linux, Architecture.x64, 0, 1024⟩⟩ 1
        ClientManager.init).2.1.clients
      = [⟨1, ⟨OSType.linux, Architecture.x64, 0, 1024⟩⟩] := by
  constructor <;> rfl
/-- C2 amended: the coordinator's connection handler performs no
`cpu_cores` check at all.  Every handshake is answered with
`accepted = true` (carrying the next id), and whenever the registry is
still accepting, the worker — including one reporting `cpu_cores = 0` — is
registered. -/
theorem handshake_always_accepts (request : HandshakeRequest)
    (next_id : Nat) (manager : ClientManager)
    (hacc : manager.accepting = true) :
    (Server.handle_client_connection request next_id manager).1.accepted = true ∧
    (Server.handle_client_connection request next_id manager).1.assigned_client_id
      = next_id ∧
    (Server.handle_client_connection request next_id manager).2.1.clients
      = manager.clients ++ [⟨next_id, request.system_info⟩] := by
  refine ⟨rfl, rfl, ?_⟩
  simp [Server.handle_client_connection, ClientManager.add_client, hacc]
/-- Witness for `handshake_always_accepts`: a 0-core handshake against the
fresh registry. -/
theorem handshake_always_accepts_witness :
    (Server.handle_client_connection
        ⟨"1.0.0", ⟨OSType.linux, Architecture.x64, 0, 1024⟩⟩ 1
        ClientManager.init).1.accepted = true ∧
    (Server.handle_client_connection
        ⟨"1.0.0", ⟨OSType.linux, Architecture.x64, 0, 1024⟩⟩ 1
        ClientManager.init).1.assigned_client_id = 1 ∧
    (Server.handle_client_connection
        ⟨"1.0.0", ⟨OSType.linux, Architecture.x64, 0, 1024⟩⟩ 1
        ClientManager.init).2.1.clients
      = ClientManager.init.clients
        ++ [⟨1, ⟨OSType.linux, Architecture.x64, 0, 1024⟩⟩] :=
  handshake_always_accepts
    ⟨"1.0.0", ⟨OSType.linux, Architecture.x64, 0, 1024⟩⟩ 1
    ClientManager.init rfl
/-- C5: the worker execution engine returns exactly one `Result` per input
task, in input order, with `output[i].task_id = tasks[i].id`; failures
(validation or a thrown strategy exception) surface as `success=false`
results in their slot, never as an exception to the caller (the model is a
total function by construction). -/
theorem execute_tasks_parallel_preserves_ids
    (integrate : ℚ → ℚ → ℚ → Except String ℚ) (tasks : List Task) :
    (WorkerPool.execute_tasks_parallel integrate tasks).length = tasks.length ∧
    (WorkerPool.execute_tasks_parallel integrate tasks).map (fun r => r.task_id)
      = tasks.map fun t => t.id := by
  constructor
  · simp [WorkerPool.execute_tasks_parallel]
  · induction tasks with
    | nil => rfl
    | cons t ts ih =>
        simp only [WorkerPool.execute_tasks_parallel, List.map_cons] at ih ⊢
        rw [ih]
        have hid : (WorkerPool.process_task integrate t).task_id = t.id := by
          unfold WorkerPool.process_task Integrator.execute_task
          cases hv : t.is_valid with
          | false => rfl
          | true =>
              simp only [Bool.not_true, Bool.false_eq_true, if_false]
              cases integrate t.begin_ t.end_ t.step <;> rfl
        rw [hid]
/-- C6: `wait_for_all_results` with a nonzero timeout returns `true` iff
the received count has reached the expected count by the deadline (the
count is monotone, so this is exactly "reached before the timeout
elapsed"); with `timeout_seconds = 0` it never returns `false` — it blocks
until the count reaches the expected count and then returns `true`. -/
theorem wait_for_all_results_spec
    (expected timeout_seconds count_at_timeout eventual_count : Nat) :
    (timeout_seconds ≠ 0 →
      ((wait_for_all_results expected timeout_seconds count_at_timeout
          eventual_count = some true) ↔ expected ≤ count_at_timeout)) ∧
    (timeout_seconds = 0 →
      wait_for_all_results expected timeout_seconds count_at_timeout
          eventual_count ≠ some false ∧
      (expected ≤ eventual_count →
        wait_for_all_results expected timeout_seconds count_at_timeout
          eventual_count = some true)) := by
  constructor
  · intro h0
    simp [wait_for_all_results, h0]
  · intro h0
    subst h0
    constructor
    · unfold wait_for_all_results
      split
      · split <;> simp
      · simp at *
    · intro hle
      simp [wait_for_all_results, hle]
/-- Witness for `wait_for_all_results_spec`: expected 2, timeout 5 s,
2 results at the deadline. -/
theorem wait_for_all_results_spec_witness :
    wait_for_all_results 2 5 2 7 = some true :=
  ((wait_for_all_results_spec 2 5 2 7).1 (by decide)).mpr (by decide)
/-- C7: after any sequence of `add_result` calls, `get_final_result` is
the sum of `value` over exactly the successful results (failed results
contribute zero), and the value is the same for any arrival order of the
batches. -/
theorem get_final_result_sum_spec (expected : Nat)
    (bs bs' : List ResultBatch) (hperm : bs.Perm bs') :
    ResultAggregator.get_final_result
        (bs.foldl ResultAggregator.add_result (ResultAggregator.init expected))
      = success_sum (bs.flatMap fun bb => bb.results) ∧
    ResultAggregator.get_final_result
        (bs'.foldl ResultAggregator.add_result (ResultAggregator.init expected))
      = ResultAggregator.get_final_result
        (bs.foldl ResultAggregator.add_result (ResultAggregator.init expected)) := by
  have hform : ∀ l : List ResultBatch,
      ResultAggregator.get_final_result
        (l.foldl ResultAggregator.add_result (ResultAggregator.init expected))
      = (l.map fun bb => success_sum bb.results).sum := by
    intro l
    unfold ResultAggregator.get_final_result
    rw [foldl_add_result_total_sum]
    simp [ResultAggregator.init]
  constructor
  · rw [hform, success_sum_flatMap]
  · rw [hform, hform]
    exact (hperm.map fun bb => success_sum bb.results).sum_eq.symm
/-- Witness for `get_final_result_sum_spec`: two batches swapped. -/
theorem get_final_result_sum_spec_witness :
    ResultAggregator.get_final_result
        ([⟨1, [⟨1, 3, true, ""⟩, ⟨2, 5, false, "err"⟩], 0⟩,
          ⟨2, [⟨3, 7, true, ""⟩], 0⟩].foldl ResultAggregator.add_result
          (ResultAggregator.init 3))
      = success_sum
          (([⟨1, [⟨1, 3, true, ""⟩, ⟨2, 5, false, "err"⟩], 0⟩,
             ⟨2, [⟨3, 7, true, ""⟩], 0⟩] : List ResultBatch).flatMap
            fun bb => bb.results) ∧
    ResultAggregator.get_final_result
        ([⟨2, [⟨3, 7, true, ""⟩], 0⟩,
          ⟨1, [⟨1, 3, true, ""⟩, ⟨2, 5, false, "err"⟩], 0⟩].foldl
          ResultAggregator.add_result (ResultAggregator.init 3))
      = ResultAggregator.get_final_result
        ([⟨1, [⟨1, 3, true, ""⟩, ⟨2, 5, false, "err"⟩], 0⟩,
          ⟨2, [⟨3, 7, true, ""⟩], 0⟩].foldl ResultAggregator.add_result
          (ResultAggregator.init 3)) :=
  get_final_result_sum_spec 3
    [⟨1, [⟨1, 3, true, ""⟩, ⟨2, 5, false, "err"⟩], 0⟩,
     ⟨2, [⟨3, 7, true, ""⟩], 0⟩]
    [⟨2, [⟨3, 7, true, ""⟩], 0⟩,
     ⟨1, [⟨1, 3, true, ""⟩, ⟨2, 5, false, "err"⟩], 0⟩]
    (List.Perm.swap _ _ _)
/-- C8 counterexample: an accepted session that receives an empty
`TaskBatch` returns immediately: no `ResultBatch` (empty or otherwise) is
sent and the session never waits for STOP_WORK, refuting the claimed
no-op transition through REPORTED to STOPPED. -/
theorem client_empty_batch_counterexample :
    Client.run ⟨1, "1.0.0", true, "Connection accepted"⟩ ⟨[]⟩
        (fun _ _ _ => Except.ok 0) 0
      = { result_sent := none, waited_for_stop := false, error := none } := by
  rfl
/-- C8 amended: on receiving an empty `TaskBatch` the worker logs
"No tasks received, exiting" and returns from `run` right away — it sends
no `ResultBatch` and does not wait for the STOP_WORK command (the socket is
closed by the destructor). -/
theorem client_empty_batch_early_return (handshake : HandshakeResponse)
    (integrate : ℚ → ℚ → ℚ → Except String ℚ) (elapsed : ℚ)
    (hacc : handshake.accepted = true) :
    Client.run handshake ⟨[]⟩ integrate elapsed
      = { result_sent := none, waited_for_stop := false, error := none } := by
  simp [Client.run, hacc]
/-- Witness for `client_empty_batch_early_return`. -/
theorem client_empty_batch_early_return_witness :
    Client.run ⟨1, "1.0.0", true, "Connection accepted"⟩ ⟨[]⟩
        (fun _ _ _ => Except.ok 0) 0
      = { result_sent := none, waited_for_stop := false, error := none } :=
  client_empty_batch_early_return ⟨1, "1.0.0", true, "Connection accepted"⟩
    (fun _ _ _ => Except.ok 0) 0 rfl
/-- C9 counterexample: after `stop_accepting`, `add_client` does return the
sentinel 0 and leaves the client list untouched, but it increments
`next_client_id_` from 1 to 2 — the registry state is not unchanged. -/
theorem add_client_counter_counterexample :
    ClientManager.add_client (ClientManager.stop_accepting ClientManager.init)
        ⟨1, ⟨OSType.linux, Architecture.x64, 4, 1024⟩⟩
      = (0, { clients := [], accepting := false, next_client_id := 2 }) ∧
    (2 : Nat) ≠ (ClientManager.stop_accepting ClientManager.init).next_client_id := by
  constructor
  · rfl
  · decide
/-- C9 amended: once `stop_accepting` is latched, every `add_client`
returns the not-accepted sentinel 0 and leaves the stored client list (and
hence the total core count) unchanged — but it does mutate the registry's
`next_client_id_` counter, incrementing it by one per rejected call. -/
theorem add_client_not_accepting_spec (m : ClientManager)
    (connection : ClientConnection) (hm : m.accepting = false) :
    (ClientManager.add_client m connection).1 = 0 ∧
    (ClientManager.add_client m connection).2.clients = m.clients ∧
    ClientManager.get_total_cpu_cores (ClientManager.add_client m connection).2
      = ClientManager.get_total_cpu_cores m ∧
    (ClientManager.add_client m connection).2.next_client_id
      = m.next_client_id + 1 := by
  unfold ClientManager.add_client
  rw [hm]
  exact ⟨rfl, rfl, rfl, rfl⟩
/-- Witness for `add_client_not_accepting_spec`. -/
theorem add_client_not_accepting_spec_witness :
    (ClientManager.add_client (ClientManager.stop_accepting ClientManager.init)
        ⟨1, ⟨OSType.linux, Architecture.x64, 4, 1024⟩⟩).1 = 0 ∧
    (ClientManager.add_client (ClientManager.stop_accepting ClientManager.init)
        ⟨1, ⟨OSType.linux, Architecture.x64, 4, 1024⟩⟩).2.clients
      = (ClientManager.stop_accepting ClientManager.init).clients ∧
    ClientManager.get_total_cpu_cores
        (ClientManager.add_client (ClientManager.stop_accepting ClientManager.init)
          ⟨1, ⟨OSType.linux, Architecture.x64, 4, 1024⟩⟩).2
      = ClientManager.get_total_cpu_cores
          (ClientManager.stop_accepting ClientManager.init) ∧
    (ClientManager.add_client (ClientManager.stop_accepting ClientManager.init)
        ⟨1, ⟨OSType.linux, Architecture.x64, 4, 1024⟩⟩).2.next_client_id
      = (ClientManager.stop_accepting ClientManager.init).next_client_id + 1 :=
  add_client_not_accepting_spec (ClientManager.stop_accepting ClientManager.init)
    ⟨1, ⟨OSType.linux, Architecture.x64, 4, 1024⟩⟩ rfl
/-- C10 counterexample: the inputs `lower = 2^53`, `upper = 2^53 + 4`,
`step = 1` pass `TrapezoidalRule`'s parameter validation, yet under
binary64 rounding the very first cursor update is absorbed
(`fl64 (2^53 + 1) = 2^53`, the IEEE double result of `x + step`), so the
cursor never increases and the loop runs forever: no amount of fuel makes
it return. -/
theorem trapezoidal_step_absorption_counterexample :
    trapezoid_validate 9007199254740992 9007199254740996 1 = true ∧
    fl64 ((9007199254740992 : ℚ) + 1) = 9007199254740992 ∧
    trapezoid_loop_fp (fun _ => 0) 9007199254740996 1 1000000000
        9007199254740992 0 0 = none := by
  refine ⟨?_, ?_, ?_⟩
  · simp only [trapezoid_validate, decide_eq_true_eq]
    norm_num [epsTol]
  · rw [show ((9007199254740992 : ℚ) + 1) = 9007199254740993 by norm_num]
    exact fl64_absorb
  · exact trapezoid_loop_fp_stuck (fun _ => 0) 1000000000 0 0
/-- C10 amended: under exact arithmetic the claim's reasoning is sound —
for every input passing `TrapezoidalRule`'s validation the cursor strictly
increases each iteration and the loop terminates within
`⌈(upper − lower)/step⌉ + 1` iterations.  Under IEEE-754 binary64
arithmetic this fails when `step` is below half an ulp of `x`: the
addition `x + step` rounds back to `x` and the loop never terminates
(see the counterexample at `lower = 2^53`, `step = 1`). -/
theorem trapezoidal_loop_terminates_exact (f : ℚ → ℚ)
    (lower upper step : ℚ)
    (hvp : trapezoid_validate lower upper step = true) :
    ∃ fuel,
      (trapezoid_loop_exact f upper step fuel lower 0 (f lower)).isSome
        = true := by
  have hprop := of_decide_eq_true hvp
  obtain ⟨-, -, -, hs, -⟩ := hprop
  have hstep : 0 < step := not_le.mp hs
  refine ⟨⌈(upper - lower)/step⌉₊ + 1, ?_⟩
  apply trapezoid_loop_exact_term_aux f upper step hstep
  have h1 : (upper - lower)/step ≤ (⌈(upper - lower)/step⌉₊ : ℚ) :=
    Nat.le_ceil _
  calc upper - lower = ((upper - lower)/step) * step := by
        field_simp
    _ ≤ (⌈(upper - lower)/step⌉₊ : ℚ) * step :=
        mul_le_mul_of_nonneg_right h1 hstep.le
/-- Witness for `trapezoidal_loop_terminates_exact`: `[2, 30]`, step 1. -/
theorem trapezoidal_loop_terminates_exact_witness :
    ∃ fuel,
      (trapezoid_loop_exact (fun _ => (0:ℚ)) 30 1 fuel 2 0 0).isSome
        = true :=
  trapezoidal_loop_terminates_exact (fun _ => (0:ℚ)) 2 30 1
    (by simp only [trapezoid_validate, decide_eq_true_eq]
        norm_num [epsTol])
end DistributedIntegration
